import Mathlib

/-!
Verification of the signal-driven order decision engine in `tradingbot.py`
(class `MLTrader`). The strategy state, position sizing and the decision
logic of `on_trading_iteration` are embedded shallowly: money amounts and
prices are rationals, Python's `round` (round-half-to-even) is
`roundHalfEven`, and the fallible division in `position_sizing` is an
`Except` (Python raises `ZeroDivisionError` when `last_price == 0`).
Side effects of one iteration (`sell_all`, `submit_order`) are recorded as
an event list; the `last_trade` attribute is threaded explicitly.
-/

/-- Side of an order, the strings "buy" / "sell" in the source. -/
inductive Side where
  | buy
  | sell
deriving DecidableEq, Repr

/-- Sentiment label returned by `estimate_sentiment`:
"positive", "negative" or "neutral". -/
inductive Sentiment where
  | positive
  | negative
  | neutral
deriving DecidableEq, Repr

/-- A bracket order as built by `create_order` in `on_trading_iteration`. -/
structure Order where
  symbol : String
  quantity : ℤ
  side : Side
  takeProfitPrice : ℚ
  stopLossPrice : ℚ
deriving DecidableEq, Repr

/-- Observable side effects of one trading iteration: `sell_all()` calls
and `submit_order(order)` calls, in program order. -/
inductive Event where
  | sellAll
  | submit (order : Order)
deriving DecidableEq, Repr

/-- Python's built-in `round` on an exact value: round to the nearest
integer, ties to the even integer (banker's rounding). -/
def roundHalfEven (q : ℚ) : ℤ :=
  if q - ⌊q⌋ < 1/2 then ⌊q⌋
  else if 1/2 < q - ⌊q⌋ then ⌊q⌋ + 1
  else if Even ⌊q⌋ then ⌊q⌋ else ⌊q⌋ + 1

/-- Embedding of `MLTrader.position_sizing` (line 72 of the source):
`quantity = round(cash * self.cash_at_risk / last_price)`. The division
raises `ZeroDivisionError` in Python when `last_price` is zero; there is
no guard in the source, so the embedding errors exactly there. -/
def position_sizing (cash cash_at_risk last_price : ℚ) : Except String ℤ :=
  if last_price = 0 then Except.error "ZeroDivisionError"
  else Except.ok (roundHalfEven (cash * cash_at_risk / last_price))

/-- Sentiment-probability threshold `.999` used on lines 100 and 113. -/
def probThreshold : ℚ := 999/1000

/-- Embedding of `MLTrader.on_trading_iteration` (lines 89-125). Inputs
that the source reads from collaborators (`get_cash`, `get_last_price`,
`get_sentiment`) are parameters; the result is the new `last_trade`
value together with the list of emitted side effects, or an error when
`position_sizing` raises (in which case nothing was emitted and
`last_trade` is untouched, since sizing is the first statement). -/
def on_trading_iteration (symbol : String) (cash_at_risk : ℚ)
    (last_trade : Option Side) (cash last_price : ℚ)
    (sentiment : Sentiment) (probability : ℚ) :
    Except String (Option Side × List Event) :=
  match position_sizing cash cash_at_risk last_price with
  | Except.error e => Except.error e
  | Except.ok quantity =>
    if cash > last_price then
      if sentiment = Sentiment.positive ∧ probability > probThreshold then
        Except.ok (some Side.buy,
          (if last_trade = some Side.sell then [Event.sellAll] else []) ++
          [Event.submit
            { symbol := symbol, quantity := quantity, side := Side.buy
              takeProfitPrice := last_price * (120/100)
              stopLossPrice := last_price * (95/100) }])
      else
        Except.ok (last_trade, [])
    else
      if sentiment = Sentiment.negative ∧ probability > probThreshold then
        if last_trade = some Side.buy then
          Except.ok (some Side.buy,
            [Event.sellAll,
             Event.submit
              { symbol := symbol, quantity := quantity, side := Side.sell
                takeProfitPrice := last_price * (80/100)
                stopLossPrice := last_price * (105/100) }])
        else
          Except.ok (last_trade, [])
      else
        Except.ok (last_trade, [])

/-- States of `last_trade` reachable from `initialize` (line 45,
`self.last_trade = None`) by any sequence of trading iterations. An
iteration that raises leaves the state as it was, so only successful
iterations step the state. -/
inductive Reachable : Option Side → Prop where
  | init : Reachable none
  | step {s s' : Option Side} {symbol : String}
      {cash_at_risk cash last_price probability : ℚ}
      {sentiment : Sentiment} {evs : List Event} :
      Reachable s →
      on_trading_iteration symbol cash_at_risk s cash last_price
        sentiment probability = Except.ok (s', evs) →
      Reachable s'

/-- Recognizer for `submit_order` events. -/
def isSubmit : Event → Bool
  | Event.sellAll => false
  | Event.submit _ => true

/-- Number of orders submitted during one iteration. -/
def submitCount (evs : List Event) : ℕ := evs.countP isSubmit

instance {ε α : Type} [DecidableEq ε] [DecidableEq α] :
    DecidableEq (Except ε α) := fun a b =>
  match a, b with
  | Except.error e, Except.error f =>
    if h : e = f then isTrue (by rw [h]) else
      isFalse (by intro hc; cases hc; exact h rfl)
  | Except.error _, Except.ok _ => isFalse (by intro hc; cases hc)
  | Except.ok _, Except.error _ => isFalse (by intro hc; cases hc)
  | Except.ok x, Except.ok y =>
    if h : x = y then isTrue (by rw [h]) else
      isFalse (by intro hc; cases hc; exact h rfl)

/-- The rounded value never exceeds the argument by more than a half. -/
lemma roundHalfEven_le (q : ℚ) : (roundHalfEven q : ℚ) ≤ q + 1/2 := by
  have h1 := Int.floor_le q
  have h2 := Int.lt_floor_add_one q
  unfold roundHalfEven
  split_ifs with ha hb hc
  · push_cast
    linarith
  · push_cast
    linarith
  · push_cast
    rw [not_lt] at ha
    linarith
  · push_cast
    rw [not_lt] at ha
    linarith

/-- The rounded value never falls below the argument by more than a half. -/
lemma le_roundHalfEven (q : ℚ) : q - 1/2 ≤ (roundHalfEven q : ℚ) := by
  have h1 := Int.floor_le q
  have h2 := Int.lt_floor_add_one q
  unfold roundHalfEven
  split_ifs with ha hb hc
  · push_cast
    linarith
  · push_cast
    linarith
  · push_cast
    rw [not_lt] at hb
    linarith
  · push_cast
    rw [not_lt] at hb
    linarith

/-- Round-half-to-even is monotone. -/
lemma roundHalfEven_mono {q1 q2 : ℚ} (h : q1 ≤ q2) :
    roundHalfEven q1 ≤ roundHalfEven q2 := by
  by_contra hlt
  rw [not_le] at hlt
  have hcast : (roundHalfEven q2 : ℚ) + 1 ≤ (roundHalfEven q1 : ℚ) := by
    exact_mod_cast Int.add_one_le_iff.mpr hlt
  have hb1 := roundHalfEven_le q1
  have hb2 := le_roundHalfEven q2
  have heq : q1 = q2 := le_antisymm h (by linarith)
  subst heq
  exact absurd hlt (lt_irrefl _)

/-- Rounding a nonnegative rational yields a nonnegative integer. -/
lemma roundHalfEven_nonneg {q : ℚ} (h : 0 ≤ q) : 0 ≤ roundHalfEven q := by
  have h1 := le_roundHalfEven q
  have h2 : (-1 : ℚ) < ((roundHalfEven q : ℤ) : ℚ) := by linarith
  have h3 : (-1 : ℤ) < roundHalfEven q := by exact_mod_cast h2
  omega

/-- With a zero last price the iteration raises `ZeroDivisionError` from
`position_sizing` before any side effect or state change. -/
lemma on_trading_iteration_zero_price (symbol : String) (car : ℚ)
    (lt : Option Side) (cash lp : ℚ) (sent : Sentiment) (prob : ℚ)
    (hlp : lp = 0) :
    on_trading_iteration symbol car lt cash lp sent prob =
      Except.error "ZeroDivisionError" := by
  unfold on_trading_iteration position_sizing
  rw [if_pos hlp]

/-- With a nonzero last price the iteration reduces to the branch logic
applied to the rounded quantity. -/
lemma on_trading_iteration_eq (symbol : String) (car : ℚ)
    (lt : Option Side) (cash lp : ℚ) (sent : Sentiment) (prob : ℚ)
    (hlp : lp ≠ 0) :
    on_trading_iteration symbol car lt cash lp sent prob =
      (if cash > lp then
        if sent = Sentiment.positive ∧ prob > probThreshold then
          Except.ok (some Side.buy,
            (if lt = some Side.sell then [Event.sellAll] else []) ++
            [Event.submit ⟨symbol, roundHalfEven (cash * car / lp), Side.buy,
              lp * (120/100), lp * (95/100)⟩])
        else Except.ok (lt, [])
      else
        if sent = Sentiment.negative ∧ prob > probThreshold then
          if lt = some Side.buy then
            Except.ok (some Side.buy,
              [Event.sellAll,
               Event.submit ⟨symbol, roundHalfEven (cash * car / lp), Side.sell,
                 lp * (80/100), lp * (105/100)⟩])
          else Except.ok (lt, [])
        else Except.ok (lt, [])) := by
  unfold on_trading_iteration position_sizing
  rw [if_neg hlp]

/-- Exhaustive case analysis of a successful iteration: either the buy
branch fired, or the sell branch fired (which requires a remembered
buy), or nothing happened and the state is unchanged. -/
lemma iteration_cases (symbol : String) (car : ℚ) (lt : Option Side)
    (cash lp : ℚ) (sent : Sentiment) (prob : ℚ) (s : Option Side)
    (evs : List Event)
    (h : on_trading_iteration symbol car lt cash lp sent prob =
      Except.ok (s, evs)) :
    lp ≠ 0 ∧
    ((cash > lp ∧ sent = Sentiment.positive ∧ prob > probThreshold ∧
        s = some Side.buy ∧
        evs = (if lt = some Side.sell then [Event.sellAll] else []) ++
          [Event.submit ⟨symbol, roundHalfEven (cash * car / lp), Side.buy,
            lp * (120/100), lp * (95/100)⟩]) ∨
     (¬cash > lp ∧ sent = Sentiment.negative ∧ prob > probThreshold ∧
        lt = some Side.buy ∧ s = some Side.buy ∧
        evs = [Event.sellAll,
          Event.submit ⟨symbol, roundHalfEven (cash * car / lp), Side.sell,
            lp * (80/100), lp * (105/100)⟩]) ∨
     (s = lt ∧ evs = [])) := by
  by_cases hlp : lp = 0
  · rw [on_trading_iteration_zero_price symbol car lt cash lp sent prob hlp] at h
    exact absurd h (by simp)
  · refine ⟨hlp, ?_⟩
    rw [on_trading_iteration_eq symbol car lt cash lp sent prob hlp] at h
    by_cases h1 : cash > lp
    · rw [if_pos h1] at h
      by_cases h2 : sent = Sentiment.positive ∧ prob > probThreshold
      · rw [if_pos h2] at h
        obtain ⟨hs, hevs⟩ :
            some Side.buy = s ∧
            (if lt = some Side.sell then [Event.sellAll] else []) ++
              [Event.submit ⟨symbol, roundHalfEven (cash * car / lp), Side.buy,
                lp * (120/100), lp * (95/100)⟩] = evs := by
          simpa using h
        exact Or.inl ⟨h1, h2.1, h2.2, hs.symm, hevs.symm⟩
      · rw [if_neg h2] at h
        obtain ⟨hs, hevs⟩ : lt = s ∧ ([] : List Event) = evs := by simpa using h
        exact Or.inr (Or.inr ⟨hs.symm, hevs.symm⟩)
    · rw [if_neg h1] at h
      by_cases h3 : sent = Sentiment.negative ∧ prob > probThreshold
      · rw [if_pos h3] at h
        by_cases h4 : lt = some Side.buy
        · rw [if_pos h4] at h
          obtain ⟨hs, hevs⟩ :
              some Side.buy = s ∧
              [Event.sellAll,
               Event.submit ⟨symbol, roundHalfEven (cash * car / lp), Side.sell,
                 lp * (80/100), lp * (105/100)⟩] = evs := by
            simpa using h
          exact Or.inr (Or.inl ⟨h1, h3.1, h3.2, h4, hs.symm, hevs.symm⟩)
        · rw [if_neg h4] at h
          obtain ⟨hs, hevs⟩ : lt = s ∧ ([] : List Event) = evs := by simpa using h
          exact Or.inr (Or.inr ⟨hs.symm, hevs.symm⟩)
      · rw [if_neg h3] at h
        obtain ⟨hs, hevs⟩ : lt = s ∧ ([] : List Event) = evs := by simpa using h
        exact Or.inr (Or.inr ⟨hs.symm, hevs.symm⟩)

/-- A successful iteration either keeps the remembered side or sets it
to `buy`; it never sets it to `sell`. -/
lemma iteration_state_step (symbol : String) (car : ℚ) (lt : Option Side)
    (cash lp : ℚ) (sent : Sentiment) (prob : ℚ) (s : Option Side)
    (evs : List Event)
    (h : on_trading_iteration symbol car lt cash lp sent prob =
      Except.ok (s, evs)) :
    s = lt ∨ s = some Side.buy := by
  rcases (iteration_cases symbol car lt cash lp sent prob s evs h).2 with
    hb | hs | hn
  · exact Or.inr hb.2.2.2.1
  · exact Or.inr hs.2.2.2.2.1
  · exact Or.inl hn.1

/-- C2: whenever cash exceeds the last price, the sentiment is positive
and its probability exceeds 0.999, the iteration emits exactly one Buy
order with quantity `round(cash*cashAtRisk/lastPrice)`, take profit
`lastPrice*1.20` and stop loss `lastPrice*0.95`, and `last_trade`
becomes Buy afterwards. -/
theorem buy_branch_emits_single_buy_intent (symbol : String)
    (car : ℚ) (lt : Option Side) (cash lp prob : ℚ)
    (hlp : 0 < lp) (hc : cash > lp) (hp : prob > probThreshold) :
    on_trading_iteration symbol car lt cash lp Sentiment.positive prob =
      Except.ok (some Side.buy,
        (if lt = some Side.sell then [Event.sellAll] else []) ++
        [Event.submit ⟨symbol, roundHalfEven (cash * car / lp), Side.buy,
          lp * (120/100), lp * (95/100)⟩]) ∧
    submitCount
      ((if lt = some Side.sell then [Event.sellAll] else []) ++
        [Event.submit ⟨symbol, roundHalfEven (cash * car / lp), Side.buy,
          lp * (120/100), lp * (95/100)⟩]) = 1 := by
  constructor
  · rw [on_trading_iteration_eq symbol car lt cash lp Sentiment.positive prob
      hlp.ne']
    rw [if_pos hc, if_pos ⟨rfl, hp⟩]
  · by_cases hs : lt = some Side.sell
    · rw [if_pos hs]
      rfl
    · rw [if_neg hs]
      rfl

/-- Witness for C2 at the spec's Example 2: cash 10000, price 100,
positive sentiment at probability 0.9995, no remembered trade. -/
theorem buy_branch_emits_single_buy_intent_witness :
    on_trading_iteration "SPY" (1/2) none 10000 100 Sentiment.positive
      (9995/10000) =
      Except.ok (some Side.buy,
        [Event.submit ⟨"SPY", 50, Side.buy, 120, 95⟩]) := by
  have h := (buy_branch_emits_single_buy_intent "SPY" (1/2) none 10000 100
    (9995/10000) (by norm_num) (by norm_num) (by norm_num [probThreshold])).1
  rw [h]
  norm_num [roundHalfEven]
  simp

/-- C1 counterexample: with no remembered trade (`last_trade = None`),
cash 50 below price 100, negative sentiment at probability 0.9996, the
code emits no Sell order at all: the submission sits inside the
`last_trade == "buy"` test. -/
theorem sell_without_prior_buy_cex :
    ¬ ∃ s evs o, on_trading_iteration "SPY" (1/2) none 50 100
        Sentiment.negative (9996/10000) = Except.ok (s, evs) ∧
      Event.submit o ∈ evs ∧ o.side = Side.sell := by
  rintro ⟨s, evs, o, heq, hmem, hside⟩
  have h0 : on_trading_iteration "SPY" (1/2) none 50 100
      Sentiment.negative (9996/10000) =
      Except.ok ((none : Option Side), ([] : List Event)) := by
    rw [on_trading_iteration_eq "SPY" (1/2) none 50 100 Sentiment.negative
      (9996/10000) (by norm_num)]
    norm_num [probThreshold]
    simp
  rw [h0] at heq
  obtain ⟨-, hevs⟩ : (none : Option Side) = s ∧ ([] : List Event) = evs := by
    simpa using heq
  rw [← hevs] at hmem
  simp at hmem

/-- C1 amended: in the sell branch (cash at most the last price, negative
sentiment above the 0.999 threshold) a Sell order with quantity
`round(cash*cashAtRisk/lastPrice)`, take profit `lastPrice*0.80` and
stop loss `lastPrice*1.05` is emitted, preceded by a liquidation, only
when `last_trade` is Buy; for any other remembered state nothing is
emitted and the state is unchanged. -/
theorem sell_branch_requires_last_trade_buy (symbol : String)
    (car : ℚ) (lt : Option Side) (cash lp prob : ℚ)
    (hc : cash ≤ lp) (hlp : 0 < lp) (hp : prob > probThreshold) :
    on_trading_iteration symbol car lt cash lp Sentiment.negative prob =
      if lt = some Side.buy then
        Except.ok (some Side.buy,
          [Event.sellAll,
           Event.submit ⟨symbol, roundHalfEven (cash * car / lp), Side.sell,
             lp * (80/100), lp * (105/100)⟩])
      else Except.ok (lt, []) := by
  rw [on_trading_iteration_eq symbol car lt cash lp Sentiment.negative prob
    hlp.ne']
  rw [if_neg (not_lt.mpr hc), if_pos ⟨rfl, hp⟩]

/-- Witness for the amended C1 at the spec's Example 4 configuration with
a remembered Buy: the Sell order is emitted after a liquidation, with
quantity 0, take profit 80 and stop loss 105. -/
theorem sell_branch_requires_last_trade_buy_witness :
    on_trading_iteration "SPY" (1/2) (some Side.buy) 50 100
      Sentiment.negative (9996/10000) =
      Except.ok (some Side.buy,
        [Event.sellAll, Event.submit ⟨"SPY", 0, Side.sell, 80, 105⟩]) := by
  have h := sell_branch_requires_last_trade_buy "SPY" (1/2) (some Side.buy)
    50 100 (9996/10000) (by norm_num) (by norm_num) (by norm_num [probThreshold])
  rw [h]
  norm_num [roundHalfEven]

/-- C3 counterexample: an iteration that emits a Sell order leaves
`last_trade = Buy`, not Sell, so the state does not reflect the side of
the most recent emitted order. -/
theorem last_trade_after_sell_intent_cex :
    ∃ s evs o, on_trading_iteration "SPY" (1/2) (some Side.buy) 50 100
        Sentiment.negative (9996/10000) = Except.ok (s, evs) ∧
      Event.submit o ∈ evs ∧ o.side = Side.sell ∧ s ≠ some Side.sell := by
  refine ⟨some Side.buy,
    [Event.sellAll, Event.submit ⟨"SPY", 0, Side.sell, 80, 105⟩],
    ⟨"SPY", 0, Side.sell, 80, 105⟩, ?_, by simp, rfl, by simp⟩
  rw [on_trading_iteration_eq "SPY" (1/2) (some Side.buy) 50 100
    Sentiment.negative (9996/10000) (by norm_num)]
  norm_num [probThreshold, roundHalfEven]

/-- C3 amended: after every iteration that submits an order — of either
side — the remembered state is Buy, because both branches of the source
assign `self.last_trade = "buy"`. -/
theorem last_trade_buy_after_any_emission (symbol : String) (car : ℚ)
    (lt : Option Side) (cash lp : ℚ) (sent : Sentiment) (prob : ℚ)
    (s : Option Side) (evs : List Event) (o : Order)
    (h : on_trading_iteration symbol car lt cash lp sent prob =
      Except.ok (s, evs))
    (hmem : Event.submit o ∈ evs) : s = some Side.buy := by
  rcases (iteration_cases symbol car lt cash lp sent prob s evs h).2 with
    hb | hs | hn
  · exact hb.2.2.2.1
  · exact hs.2.2.2.2.1
  · rw [hn.2] at hmem
    simp at hmem

/-- Witness for the amended C3 at the Example 2 configuration. -/
theorem last_trade_buy_after_any_emission_witness :
    (some Side.buy : Option Side) = some Side.buy :=
  last_trade_buy_after_any_emission "SPY" (1/2) none 10000 100
    Sentiment.positive (9995/10000) (some Side.buy)
    [Event.submit ⟨"SPY", 50, Side.buy, 120, 95⟩]
    ⟨"SPY", 50, Side.buy, 120, 95⟩
    (by rw [on_trading_iteration_eq "SPY" (1/2) none 10000 100
        Sentiment.positive (9995/10000) (by norm_num)]
        norm_num [probThreshold, roundHalfEven]
        simp)
    (by simp)

/-- C4: whenever the sell branch submits a Sell order (negative sentiment
above threshold), the post-state remembers Buy — the documented source
quirk on line 125 of tradingbot.py. -/
theorem sell_branch_sets_last_trade_buy (symbol : String) (car : ℚ)
    (lt : Option Side) (cash lp prob : ℚ) (s : Option Side)
    (evs : List Event) (o : Order)
    (hp : prob > probThreshold)
    (h : on_trading_iteration symbol car lt cash lp Sentiment.negative prob =
      Except.ok (s, evs))
    (hmem : Event.submit o ∈ evs) (hside : o.side = Side.sell) :
    s = some Side.buy := by
  rcases (iteration_cases symbol car lt cash lp Sentiment.negative prob s evs
    h).2 with hb | hs | hn
  · exact absurd hb.2.1 (by decide)
  · exact hs.2.2.2.2.1
  · rw [hn.2] at hmem
    simp at hmem

/-- Witness for C4 at the concrete sell-branch firing. -/
theorem sell_branch_sets_last_trade_buy_witness :
    (some Side.buy : Option Side) = some Side.buy :=
  sell_branch_sets_last_trade_buy "SPY" (1/2) (some Side.buy) 50 100
    (9996/10000) (some Side.buy)
    [Event.sellAll, Event.submit ⟨"SPY", 0, Side.sell, 80, 105⟩]
    ⟨"SPY", 0, Side.sell, 80, 105⟩
    (by norm_num [probThreshold])
    (by rw [on_trading_iteration_eq "SPY" (1/2) (some Side.buy) 50 100
        Sentiment.negative (9996/10000) (by norm_num)]
        norm_num [probThreshold, roundHalfEven])
    (by simp) rfl

/-- C5 evidence: the division in `position_sizing` is NOT guarded against
`last_price <= 0`. At price 0 the code raises `ZeroDivisionError`, and at
price -100 it happily returns the nonsensical quantity -50. -/
theorem position_sizing_unguarded_at_nonpositive_price :
    position_sizing 10000 (1/2) 0 = Except.error "ZeroDivisionError" ∧
    position_sizing 10000 (1/2) (-100) = Except.ok (-50) := by
  constructor
  · norm_num [position_sizing]
  · norm_num [position_sizing, roundHalfEven]

/-- C6: for nonnegative cash, positive price and a risk fraction in
(0,1], `position_sizing` returns `round(cash*cashAtRisk/lastPrice)`
under round-half-to-even, and the quantity is nonnegative. -/
theorem position_sizing_round_nonneg (cash car lp : ℚ)
    (hcash : 0 ≤ cash) (hlp : 0 < lp) (hcar0 : 0 < car) (hcar1 : car ≤ 1) :
    position_sizing cash car lp =
      Except.ok (roundHalfEven (cash * car / lp)) ∧
    0 ≤ roundHalfEven (cash * car / lp) := by
  constructor
  · unfold position_sizing
    rw [if_neg hlp.ne']
  · exact roundHalfEven_nonneg (div_nonneg (mul_nonneg hcash hcar0.le) hlp.le)

/-- Witness for C6 at the spec's Example 1: cash 10000, price 100, risk
fraction one half give quantity 50. -/
theorem position_sizing_round_nonneg_witness :
    position_sizing 10000 (1/2) 100 = Except.ok 50 ∧ (0 : ℤ) ≤ 50 := by
  have h := position_sizing_round_nonneg 10000 (1/2) 100 (by norm_num)
    (by norm_num) (by norm_num) (by norm_num)
  constructor
  · rw [h.1]
    norm_num [roundHalfEven]
  · norm_num

/-- C7: the sized quantity is non-decreasing in cash at a fixed positive
price, and non-increasing in the price at fixed nonnegative cash, for a
fixed positive risk fraction. -/
theorem position_sizing_monotone (car cash1 cash2 price1 price2 : ℚ)
    (q1 q2 q3 : ℤ)
    (hcar : 0 < car) (hc1 : 0 ≤ cash1) (hcc : cash1 ≤ cash2)
    (hp1 : 0 < price1) (hpp : price1 ≤ price2)
    (h1 : position_sizing cash1 car price1 = Except.ok q1)
    (h2 : position_sizing cash2 car price1 = Except.ok q2)
    (h3 : position_sizing cash1 car price2 = Except.ok q3) :
    q1 ≤ q2 ∧ q3 ≤ q1 := by
  have hp2 : 0 < price2 := lt_of_lt_of_le hp1 hpp
  unfold position_sizing at h1 h2 h3
  rw [if_neg hp1.ne'] at h1 h2
  rw [if_neg hp2.ne'] at h3
  obtain hq1 : roundHalfEven (cash1 * car / price1) = q1 := by simpa using h1
  obtain hq2 : roundHalfEven (cash2 * car / price1) = q2 := by simpa using h2
  obtain hq3 : roundHalfEven (cash1 * car / price2) = q3 := by simpa using h3
  rw [← hq1, ← hq2, ← hq3]
  constructor
  · apply roundHalfEven_mono
    gcongr
  · apply roundHalfEven_mono
    gcongr

/-- Witness for C7 at concrete values: doubling cash doubles (here:
raises) the quantity, doubling the price lowers it. -/
theorem position_sizing_monotone_witness : (5 : ℤ) ≤ 10 ∧ (2 : ℤ) ≤ 5 :=
  position_sizing_monotone (1/2) 100 200 10 20 5 10 2 (by norm_num)
    (by norm_num) (by norm_num) (by norm_num) (by norm_num)
    (by norm_num [position_sizing, roundHalfEven])
    (by norm_num [position_sizing, roundHalfEven])
    (by norm_num [position_sizing, roundHalfEven])

/-- C8: a sentiment probability at or below the 0.999 threshold yields no
order, no liquidation and an unchanged `last_trade`, whatever the label
and the cash/price configuration (a zero price raises before reaching
the sentiment checks, also emitting nothing and changing nothing). -/
theorem no_decision_below_threshold (symbol : String) (car : ℚ)
    (lt : Option Side) (cash lp : ℚ) (sent : Sentiment) (prob : ℚ)
    (hp : prob ≤ probThreshold) :
    on_trading_iteration symbol car lt cash lp sent prob =
      Except.ok (lt, []) ∨
    on_trading_iteration symbol car lt cash lp sent prob =
      Except.error "ZeroDivisionError" := by
  by_cases hlp : lp = 0
  · exact Or.inr
      (on_trading_iteration_zero_price symbol car lt cash lp sent prob hlp)
  · left
    rw [on_trading_iteration_eq symbol car lt cash lp sent prob hlp]
    have hnp : ¬(sent = Sentiment.positive ∧ prob > probThreshold) :=
      fun hc => absurd hc.2 (not_lt.mpr hp)
    have hnn : ¬(sent = Sentiment.negative ∧ prob > probThreshold) :=
      fun hc => absurd hc.2 (not_lt.mpr hp)
    by_cases h1 : cash > lp
    · rw [if_pos h1, if_neg hnp]
    · rw [if_neg h1, if_neg hnn]

/-- Witness for C8 at the spec's Example 5: probability 0.998 with a
positive label and ample cash still produces no decision. -/
theorem no_decision_below_threshold_witness :
    on_trading_iteration "SPY" (1/2) none 10000 100 Sentiment.positive
      (998/1000) = Except.ok ((none : Option Side), ([] : List Event)) ∨
    on_trading_iteration "SPY" (1/2) none 10000 100 Sentiment.positive
      (998/1000) = Except.error "ZeroDivisionError" :=
  no_decision_below_threshold "SPY" (1/2) none 10000 100 Sentiment.positive
    (998/1000) (by norm_num [probThreshold])

/-- C9: each iteration submits at most one order; a submitted Buy implies
cash above the last price, a submitted Sell implies cash at most the
last price, and no iteration submits both a Buy and a Sell. -/
theorem at_most_one_intent_per_iteration (symbol : String) (car : ℚ)
    (lt : Option Side) (cash lp : ℚ) (sent : Sentiment) (prob : ℚ)
    (s : Option Side) (evs : List Event)
    (h : on_trading_iteration symbol car lt cash lp sent prob =
      Except.ok (s, evs)) :
    submitCount evs ≤ 1 ∧
    (∀ o : Order, Event.submit o ∈ evs →
      (o.side = Side.buy → cash > lp) ∧ (o.side = Side.sell → cash ≤ lp)) ∧
    ¬((∃ o1, Event.submit o1 ∈ evs ∧ o1.side = Side.buy) ∧
      (∃ o2, Event.submit o2 ∈ evs ∧ o2.side = Side.sell)) := by
  rcases (iteration_cases symbol car lt cash lp sent prob s evs h).2 with
    hb | hsb | hn
  · obtain ⟨hc, -, -, -, hevs⟩ := hb
    subst hevs
    have hof : ∀ o : Order,
        Event.submit o ∈
          (if lt = some Side.sell then [Event.sellAll] else []) ++
          [Event.submit ⟨symbol, roundHalfEven (cash * car / lp), Side.buy,
            lp * (120/100), lp * (95/100)⟩] →
        o = ⟨symbol, roundHalfEven (cash * car / lp), Side.buy,
          lp * (120/100), lp * (95/100)⟩ := by
      intro o hmem
      rcases List.mem_append.mp hmem with hm | hm
      · by_cases hsell : lt = some Side.sell
        · rw [if_pos hsell] at hm
          simp at hm
        · rw [if_neg hsell] at hm
          simp at hm
      · simpa using hm
    refine ⟨?_, ?_, ?_⟩
    · by_cases hsell : lt = some Side.sell
      · rw [if_pos hsell]
        rfl
      · rw [if_neg hsell]
        rfl
    · intro o hmem
      rw [hof o hmem]
      exact ⟨fun _ => hc, fun hcon => Side.noConfusion hcon⟩
    · rintro ⟨-, ⟨o2, hm2, hs2⟩⟩
      rw [hof o2 hm2] at hs2
      exact Side.noConfusion hs2
  · obtain ⟨hc, -, -, -, -, hevs⟩ := hsb
    subst hevs
    have hof : ∀ o : Order,
        Event.submit o ∈
          [Event.sellAll,
           Event.submit ⟨symbol, roundHalfEven (cash * car / lp), Side.sell,
             lp * (80/100), lp * (105/100)⟩] →
        o = ⟨symbol, roundHalfEven (cash * car / lp), Side.sell,
          lp * (80/100), lp * (105/100)⟩ := by
      intro o hmem
      simpa using hmem
    refine ⟨by rfl, ?_, ?_⟩
    · intro o hmem
      rw [hof o hmem]
      exact ⟨fun hcon => Side.noConfusion hcon, fun _ => not_lt.mp hc⟩
    · rintro ⟨⟨o1, hm1, hs1⟩, -⟩
      rw [hof o1 hm1] at hs1
      exact Side.noConfusion hs1
  · obtain ⟨-, hevs⟩ := hn
    subst hevs
    refine ⟨by decide, ?_, ?_⟩
    · intro o hmem
      simp at hmem
    · rintro ⟨⟨o1, hm1, -⟩, -⟩
      simp at hm1

/-- Witness for C9 at the Example 2 buy iteration: exactly one order in
the emitted event list. -/
theorem at_most_one_intent_per_iteration_witness :
    submitCount [Event.submit ⟨"SPY", 50, Side.buy, 120, 95⟩] ≤ 1 :=
  (at_most_one_intent_per_iteration "SPY" (1/2) none 10000 100
    Sentiment.positive (9995/10000) (some Side.buy)
    [Event.submit ⟨"SPY", 50, Side.buy, 120, 95⟩]
    (by rw [on_trading_iteration_eq "SPY" (1/2) none 10000 100
        Sentiment.positive (9995/10000) (by norm_num)]
        norm_num [probThreshold, roundHalfEven]
        simp)).1

/-- C10: starting from `last_trade = None`, no sequence of iterations
ever reaches `last_trade = Sell` (both branches can only write Buy), and
consequently in a buy-side iteration (cash above price) the liquidation
guard `last_trade == "sell"` never fires: no `sell_all` is emitted. -/
theorem reachable_last_trade_never_sell :
    ∀ s : Option Side, Reachable s →
      s ≠ some Side.sell ∧
      (∀ (symbol : String) (car cash lp : ℚ) (sent : Sentiment)
        (prob : ℚ) (s2 : Option Side) (evs : List Event), cash > lp →
        on_trading_iteration symbol car s cash lp sent prob =
          Except.ok (s2, evs) →
        Event.sellAll ∉ evs) := by
  intro s hs
  have hns : s ≠ some Side.sell := by
    induction hs with
    | init => simp
    | step hr heq ih =>
      rcases iteration_state_step _ _ _ _ _ _ _ _ _ heq with h | h
      · rw [h]
        exact ih
      · rw [h]
        simp
  refine ⟨hns, ?_⟩
  intro symbol car cash lp sent prob s2 evs hcash heq hmem
  rcases (iteration_cases symbol car s cash lp sent prob s2 evs heq).2 with
    hb | hsb | hn
  · obtain ⟨-, -, -, -, hevs⟩ := hb
    rw [hevs] at hmem
    rw [if_neg hns] at hmem
    simp at hmem
  · exact hsb.1 hcash
  · rw [hn.2] at hmem
    simp at hmem

/-- Witness for C10 at the initial state. -/
theorem reachable_last_trade_never_sell_witness :
    (none : Option Side) ≠ some Side.sell :=
  (reachable_last_trade_never_sell none Reachable.init).1
